import Mathlib

/-!
# React-Notes-Pro: the note management engine of `src/App.jsx`

A shallow embedding of the state and the handlers of the `App` component, and the
properties of the note collection, of the derived view and of import that follow from them.

Modelling conventions.

* A note is the record built by `addNote` (lines 297-311): the eleven fields below.
  Identifiers are the strings `uid()` returns; timestamps are the integers `Date.now()`
  returns; `reminder` is `null` (`none`) or a number.
* `uid()` and `Date.now()` are inputs of the handler that calls them.  All `Date.now()`
  readings of one synchronous handler are the same instant `now`.
* A JavaScript `Set` of ids is a list of strings, read through `setHas`, `setDelete`, `setAdd`.
* JavaScript numbers that may be `NaN` are `Option Int`, `none` being `NaN`.
* The built-ins whose result depends on Unicode tables or on the locale
  (`toLowerCase`, `localeCompare`, `new Date(..).getTime()`) are fields of `Platform`.
* `Array.prototype.sort` is a stable insertion sort (`arraySort`): the sort of ECMAScript is
  stable, so for a consistent comparator this is the order the language prescribes.
* A handler runs to completion on the current state (no stale closures), as in §5 of the spec.
  The keyboard handler reads the array `filtered` of the render that registered it;
  `selectAllWith` takes the array it reads as an argument.
* `Math.round(a / b)` is the rounding of the exact quotient.
* A string in `localStorage` is the value `JSON.stringify` wrote (`StoredValue`).
* A string is its sequence of code points; `length` and `substring` count code points, which
  are the UTF-16 units of JavaScript for text in the Basic Multilingual Plane.
-/

namespace NotesPro

/-! ## Data model -/

/-- A note object, with the fields `addNote` gives it. -/
structure Note where
  id : String
  text : String
  title : String
  category : String
  priority : String
  tags : List String
  color : String
  createdAt : Int
  updatedAt : Int
  archived : Bool
  reminder : Option (Option Int)
  deriving DecidableEq, Repr

/-- A JavaScript `Set` of note ids. -/
abbrev IdSet := List String

/-- The method `set.has(id)`. -/
def setHas (s : IdSet) (id : String) : Bool := s.contains id

/-- The method `set.delete(id)`. -/
def setDelete (s : IdSet) (id : String) : IdSet := s.filter (fun x => x != id)

/-- The method `set.add(id)`: a set holds each value once. -/
def setAdd (s : IdSet) (id : String) : IdSet := if setHas s id then s else s ++ [id]

/-- The body shared by `toggleFavorite`, `togglePin` and `toggleNoteSelection`:
`if (updated.has(id)) updated.delete(id) else updated.add(id)`. -/
def setToggle (s : IdSet) (id : String) : IdSet :=
  if setHas s id then setDelete s id else setAdd s id

/-- The constructor `new Set(array)`: the values of the array, each once, in order of first
occurrence. -/
def setOfList (l : List String) : IdSet := l.foldl setAdd []

/-- The built-ins of the host that the handlers call and that depend on Unicode data or on the
locale. -/
structure Platform where
  /-- The method `String.prototype.toLowerCase`. -/
  toLowerCase : String → String
  /-- The method `String.prototype.localeCompare`. -/
  localeCompare : String → String → Int
  /-- The time `new Date(s).getTime()`; `none` is `NaN` (an invalid date). -/
  dateGetTime : String → Option Int
  /-- The text `new Date(ts).toLocaleString()`. -/
  toLocaleString : Int → String
  /-- The text `JSON.stringify(notes, null, 2)`. -/
  jsonStringify : List Note → String

/-- The value `JSON.parse` returns, as far as `importNotes` inspects it: whether it is an array,
and the elements of the array.  The elements are objects carrying the fields of a note; their
`id`, `createdAt` and `updatedAt` may hold anything, import overwrites them. -/
inductive JsonRoot where
  | null
  | bool (b : Bool)
  | number (n : Int)
  | string (s : String)
  | object (fields : List (String × String))
  | array (elems : List Note)
  deriving Repr

/-- The state of the `App` component that the engine reads and writes (the `useState` cells),
and the messages shown with `alert`, oldest first. -/
structure AppState where
  notes : List Note
  search : String
  draft : String
  editingId : Option String
  editText : String
  selectedCategory : String
  selectedPriority : String
  filterCategory : String
  filterPriority : String
  sortBy : String
  selectedNotes : IdSet
  showArchived : Bool
  exportFormat : String
  reminderDate : String
  reminderTime : String
  tags : String
  favoriteNotes : IdSet
  pinnedNotes : IdSet
  selectedColor : String
  alerts : List String
  deriving Repr

/-- The initial values of the `useState` cells, with nothing saved in `localStorage`. -/
def initialState : AppState where
  notes := []
  search := ""
  draft := ""
  editingId := none
  editText := ""
  selectedCategory := "personal"
  selectedPriority := "medium"
  filterCategory := "all"
  filterPriority := "all"
  sortBy := "newest"
  selectedNotes := []
  showArchived := false
  exportFormat := "json"
  reminderDate := ""
  reminderTime := ""
  tags := ""
  favoriteNotes := []
  pinnedNotes := []
  selectedColor := "#ffffff"
  alerts := []

/-! ## Strings -/

/-- The code points `String.prototype.trim` removes: ECMAScript WhiteSpace and LineTerminator. -/
def isWhiteSpace (c : Char) : Bool :=
  [0x9, 0xA, 0xB, 0xC, 0xD, 0x20, 0xA0, 0x1680, 0x2000, 0x2001, 0x2002, 0x2003, 0x2004,
    0x2005, 0x2006, 0x2007, 0x2008, 0x2009, 0x200A, 0x2028, 0x2029, 0x202F, 0x205F, 0x3000,
    0xFEFF].contains c.toNat

/-- The method `s.trim()`. -/
def trim (s : String) : String :=
  ⟨((s.data.dropWhile isWhiteSpace).reverse.dropWhile isWhiteSpace).reverse⟩

/-- The method `s.includes(q)` on the characters of the two strings. -/
def includesChars : List Char → List Char → Bool
  | [], q => q.isEmpty
  | c :: s, q => q.isPrefixOf (c :: s) || includesChars s q

/-- The method `s.includes(q)`. -/
def includes (s q : String) : Bool := includesChars s.data q.data

/-- The method `s.split(sep)` for a one-character separator, on the characters of the string. -/
def splitChars (sep : Char) : List Char → List (List Char)
  | [] => [[]]
  | c :: s =>
    match splitChars sep s with
    | [] => [[]]
    | piece :: rest => if c = sep then [] :: piece :: rest else (c :: piece) :: rest

/-- The title `text.split("\n")[0].substring(0, 50)`: the first line, cut to 50 characters
(a character is one code point, which is one UTF-16 unit throughout the Basic Multilingual
Plane). -/
def deriveTitle (text : String) : String :=
  ⟨((splitChars (Char.ofNat 10) text.data).headD []).take 50⟩

/-- The tag list of the composer:
`tags.split(",").map(tag => tag.trim()).filter(tag => tag.length > 0)`. -/
def tagList (tags : String) : List String :=
  ((splitChars (Char.ofNat 44) tags.data).map (fun piece => trim ⟨piece⟩)).filter
    (fun tag => decide (tag.length > 0))

/-- The operand `a || b` of two strings: the empty string is falsy. -/
def strOr (a b : String) : String := if a ≠ "" then a else b

/-! ## Mutators of the collection -/

/-- The handler `removeNote` (lines 323-344). -/
def removeNote (s : AppState) (id : String) : AppState :=
  { s with
    notes := s.notes.filter (fun n => n.id != id)
    selectedNotes := setDelete s.selectedNotes id
    favoriteNotes := setDelete s.favoriteNotes id
    pinnedNotes := setDelete s.pinnedNotes id
    editingId := if s.editingId = some id then none else s.editingId
    editText := if s.editingId = some id then "" else s.editText }

/-- The handler `addNote` (lines 288-320); `newId` is what `uid()` returns and `now` what
`Date.now()` returns. -/
def addNote (P : Platform) (s : AppState) (newId : String) (now : Int) : AppState :=
  let text := trim s.draft
  if text = "" then s
  else
    let newNote : Note :=
      { id := newId
        text := text
        title := deriveTitle text
        category := s.selectedCategory
        priority := s.selectedPriority
        tags := tagList s.tags
        color := s.selectedColor
        createdAt := now
        updatedAt := now
        archived := false
        reminder :=
          if s.reminderDate ≠ "" ∧ s.reminderTime ≠ ""
          then some (P.dateGetTime (s.reminderDate ++ "T" ++ s.reminderTime))
          else none }
    { s with
      notes := newNote :: s.notes
      draft := ""
      tags := ""
      reminderDate := ""
      reminderTime := ""
      selectedColor := "#ffffff" }

/-- The handler `archiveNote` (lines 347-351). -/
def archiveNote (s : AppState) (id : String) (now : Int) : AppState :=
  { s with
    notes := s.notes.map (fun n =>
      if n.id = id then { n with archived := !n.archived, updatedAt := now } else n) }

/-- The handler `toggleFavorite` (lines 354-364). -/
def toggleFavorite (s : AppState) (id : String) : AppState :=
  { s with favoriteNotes := setToggle s.favoriteNotes id }

/-- The handler `togglePin` (lines 367-377). -/
def togglePin (s : AppState) (id : String) : AppState :=
  { s with pinnedNotes := setToggle s.pinnedNotes id }

/-- The handler `toggleNoteSelection` (lines 533-543). -/
def toggleNoteSelection (s : AppState) (id : String) : AppState :=
  { s with selectedNotes := setToggle s.selectedNotes id }

/-- The note `duplicateNote` builds from `note` (lines 381-388). -/
def duplicateOf (note : Note) (newId : String) (now : Int) : Note :=
  { note with
    id := newId
    text := note.text ++ " (Copy)"
    title := note.title ++ " (Copy)"
    createdAt := now
    updatedAt := now }

/-- The handler `duplicateNote` (lines 380-390). -/
def duplicateNote (s : AppState) (note : Note) (newId : String) (now : Int) : AppState :=
  { s with notes := duplicateOf note newId now :: s.notes }

/-- The handler `bulkDelete` (lines 393-398); `confirmed` is the answer of `window.confirm`. -/
def bulkDelete (s : AppState) (confirmed : Bool) : AppState :=
  if confirmed then
    { s with
      notes := s.notes.filter (fun n => !setHas s.selectedNotes n.id)
      selectedNotes := [] }
  else s

/-- The handler `bulkArchive` (lines 400-407). -/
def bulkArchive (s : AppState) (now : Int) : AppState :=
  { s with
    notes := s.notes.map (fun n =>
      if setHas s.selectedNotes n.id
      then { n with archived := !n.archived, updatedAt := now } else n)
    selectedNotes := [] }

/-- The handler `bulkChangeCategory` (lines 409-416). -/
def bulkChangeCategory (s : AppState) (category : String) (now : Int) : AppState :=
  { s with
    notes := s.notes.map (fun n =>
      if setHas s.selectedNotes n.id
      then { n with category := category, updatedAt := now } else n)
    selectedNotes := [] }

/-- The handler `startEdit` (lines 419-426). -/
def startEdit (s : AppState) (note : Note) : AppState :=
  { s with
    editingId := some note.id
    editText := note.text
    selectedCategory := note.category
    selectedPriority := note.priority
    tags := strOr (String.intercalate ", " note.tags) ""
    selectedColor := strOr note.color "#ffffff" }

/-- The handler `saveEdit` (lines 428-455). -/
def saveEdit (s : AppState) (now : Int) : AppState :=
  let text := trim s.editText
  if text = "" then s
  else
    { s with
      notes := s.notes.map (fun n =>
        if some n.id = s.editingId then
          { n with
            text := text
            title := deriveTitle text
            category := s.selectedCategory
            priority := s.selectedPriority
            tags := tagList s.tags
            color := s.selectedColor
            updatedAt := now }
        else n)
      editingId := none
      editText := ""
      tags := ""
      selectedColor := "#ffffff" }

/-- The handler `cancelEdit` (lines 457-462). -/
def cancelEdit (s : AppState) : AppState :=
  { s with editingId := none, editText := "", tags := "", selectedColor := "#ffffff" }

/-- The test `Array.isArray(importedData)`. -/
def JsonRoot.isArray : JsonRoot → Bool
  | .array _ => true
  | _ => false

/-- The notes `importedData.map(note => ({...note, id: uid(), createdAt: Date.now(),
updatedAt: Date.now()}))` builds (lines 516-521); `uid i` is what the call of `uid()` for the
element at index `i` returns. -/
def importedNotes (uid : Nat → String) (now : Int) (i : Nat) : List Note → List Note
  | [] => []
  | note :: rest =>
    { note with id := uid i, createdAt := now, updatedAt := now } ::
      importedNotes uid now (i + 1) rest

/-- The text of the `alert` in the `catch` of `importNotes` (line 525). -/
def invalidFileMessage : String := "Invalid file format. Please select a valid JSON file."

/-- The callback `reader.onload` of `importNotes` (lines 512-527).  `parsed` is the outcome of
`JSON.parse(e.target.result)`: `none` when it throws. -/
def importNotes (s : AppState) (parsed : Option JsonRoot) (uid : Nat → String) (now : Int) :
    AppState :=
  match parsed with
  | none => { s with alerts := s.alerts ++ [invalidFileMessage] }
  | some importedData =>
    match importedData with
    | .array elems => { s with notes := importedNotes uid now 0 elems ++ s.notes }
    | _ => s

/-! ## The view -/

/-- The object `priorityOrder` of the comparator (line 266): `none` for a key it does not
define, where the subtraction yields `NaN`. -/
def priorityOrder (p : String) : Option Int :=
  if p = "high" then some 3
  else if p = "medium" then some 2
  else if p = "low" then some 1
  else none

/-- The subtraction `x - y` of the comparator; it is `NaN` when an operand is not a number. -/
def jsSub : Option Int → Option Int → Option Int
  | some x, some y => some (x - y)
  | _, _ => none

/-- The `switch (sortBy)` of the comparator (lines 260-272): the order inside a pin tier. -/
def keyCompare (P : Platform) (sortBy : String) (a b : Note) : Option Int :=
  if sortBy = "oldest" then some (a.createdAt - b.createdAt)
  else if sortBy = "alphabetical" then
    some (P.localeCompare (strOr a.title a.text) (strOr b.title b.text))
  else if sortBy = "priority" then jsSub (priorityOrder b.priority) (priorityOrder a.priority)
  else if sortBy = "category" then some (P.localeCompare a.category b.category)
  else some (b.createdAt - a.createdAt)

/-- The comparator passed to `result.sort` (lines 255-273). -/
def compareNotes (P : Platform) (pinnedNotes : IdSet) (sortBy : String) (a b : Note) :
    Option Int :=
  if setHas pinnedNotes a.id && !setHas pinnedNotes b.id then some (-1)
  else if !setHas pinnedNotes a.id && setHas pinnedNotes b.id then some 1
  else keyCompare P sortBy a b

/-- The number the sort reads from a comparator result (ECMAScript `SortCompare`): `NaN`
counts as `+0`. -/
def sortValue (v : Option Int) : Int := v.getD 0

/-- Insertion of `a` in front of the first element it does not have to follow. -/
def orderedInsert {α : Type} (cmp : α → α → Option Int) (a : α) : List α → List α
  | [] => [a]
  | b :: l => if sortValue (cmp a b) ≤ 0 then a :: b :: l else b :: orderedInsert cmp a l

/-- The method `array.sort(cmp)`: a stable insertion sort.  An element moves behind another
one only when the comparator puts it strictly after. -/
def arraySort {α : Type} (cmp : α → α → Option Int) : List α → List α
  | [] => []
  | a :: l => orderedInsert cmp a (arraySort cmp l)

/-- The search predicate of the view (lines 238-240), for the query `q`. -/
def matchesQuery (P : Platform) (q : String) (n : Note) : Bool :=
  includes (P.toLowerCase n.text) q ||
  includes (P.toLowerCase n.title) q ||
  n.tags.any (fun tag => includes (P.toLowerCase tag) q)

/-- The query `q = search.trim().toLowerCase()` (line 235). -/
def searchQuery (P : Platform) (s : AppState) : String := P.toLowerCase (trim s.search)

/-- The filters of `filtered` (lines 230-252), before the sort. -/
def filterNotes (P : Platform) (s : AppState) : List Note :=
  let result :=
    if s.showArchived then s.notes.filter (fun n => n.archived)
    else s.notes.filter (fun n => !n.archived)
  let q := searchQuery P s
  let result := if q ≠ "" then result.filter (matchesQuery P q) else result
  let result :=
    if s.filterCategory ≠ "all" then result.filter (fun n => n.category == s.filterCategory)
    else result
  let result :=
    if s.filterPriority ≠ "all" then result.filter (fun n => n.priority == s.filterPriority)
    else result
  result

/-- The memo `filtered` (lines 229-276): the view. -/
def filtered (P : Platform) (s : AppState) : List Note :=
  arraySort (compareNotes P s.pinnedNotes s.sortBy) (filterNotes P s)

/-- The branch `case "a"` of `handleKeyboard` (lines 169-174): select all. -/
def selectAll (P : Platform) (s : AppState) : AppState :=
  if (filtered P s).length > 0 then
    { s with selectedNotes := setOfList ((filtered P s).map (fun n => n.id)) }
  else s

/-! ## Reachable states -/

/-- A value typed or chosen in one of the controls of the page. -/
inductive FormInput where
  | search (v : String)
  | draft (v : String)
  | editText (v : String)
  | selectedCategory (v : String)
  | selectedPriority (v : String)
  | filterCategory (v : String)
  | filterPriority (v : String)
  | sortBy (v : String)
  | showArchived (v : Bool)
  | exportFormat (v : String)
  | reminderDate (v : String)
  | reminderTime (v : String)
  | tags (v : String)
  | selectedColor (v : String)

/-- The `onChange` and `onClick` handlers that store the value of a control in its cell. -/
def setField (s : AppState) : FormInput → AppState
  | .search v => { s with search := v }
  | .draft v => { s with draft := v }
  | .editText v => { s with editText := v }
  | .selectedCategory v => { s with selectedCategory := v }
  | .selectedPriority v => { s with selectedPriority := v }
  | .filterCategory v => { s with filterCategory := v }
  | .filterPriority v => { s with filterPriority := v }
  | .sortBy v => { s with sortBy := v }
  | .showArchived v => { s with showArchived := v }
  | .exportFormat v => { s with exportFormat := v }
  | .reminderDate v => { s with reminderDate := v }
  | .reminderTime v => { s with reminderTime := v }
  | .tags v => { s with tags := v }
  | .selectedColor v => { s with selectedColor := v }

/-- The ids of the notes of a collection. -/
def noteIds (notes : List Note) : List String := notes.map (fun n => n.id)

/-- The states the page reaches from an empty store with empty sets.  The buttons that toggle
selection, favorite and pin, and the buttons edit and duplicate, belong to a note of the
collection. -/
inductive Reachable (P : Platform) : AppState → Prop where
  | init (s : AppState) (hn : s.notes = []) (hs : s.selectedNotes = [])
      (hf : s.favoriteNotes = []) (hp : s.pinnedNotes = []) : Reachable P s
  | setField {s : AppState} (i : FormInput) (h : Reachable P s) : Reachable P (setField s i)
  | addNote {s : AppState} (newId : String) (now : Int) (h : Reachable P s) :
      Reachable P (addNote P s newId now)
  | saveEdit {s : AppState} (now : Int) (h : Reachable P s) : Reachable P (saveEdit s now)
  | startEdit {s : AppState} (note : Note) (h : Reachable P s) (hmem : note ∈ s.notes) :
      Reachable P (startEdit s note)
  | cancelEdit {s : AppState} (h : Reachable P s) : Reachable P (cancelEdit s)
  | removeNote {s : AppState} (id : String) (h : Reachable P s) : Reachable P (removeNote s id)
  | archiveNote {s : AppState} (id : String) (now : Int) (h : Reachable P s) :
      Reachable P (archiveNote s id now)
  | duplicateNote {s : AppState} (note : Note) (newId : String) (now : Int)
      (h : Reachable P s) (hmem : note ∈ s.notes) : Reachable P (duplicateNote s note newId now)
  | importNotes {s : AppState} (parsed : Option JsonRoot) (uid : Nat → String) (now : Int)
      (h : Reachable P s) : Reachable P (importNotes s parsed uid now)
  | bulkDelete {s : AppState} (confirmed : Bool) (h : Reachable P s) :
      Reachable P (bulkDelete s confirmed)
  | bulkArchive {s : AppState} (now : Int) (h : Reachable P s) : Reachable P (bulkArchive s now)
  | bulkChangeCategory {s : AppState} (category : String) (now : Int) (h : Reachable P s) :
      Reachable P (bulkChangeCategory s category now)
  | selectAll {s : AppState} (h : Reachable P s) : Reachable P (selectAll P s)
  | toggleNoteSelection {s : AppState} (id : String) (h : Reachable P s)
      (hmem : id ∈ noteIds s.notes) : Reachable P (toggleNoteSelection s id)
  | toggleFavorite {s : AppState} (id : String) (h : Reachable P s)
      (hmem : id ∈ noteIds s.notes) : Reachable P (toggleFavorite s id)
  | togglePin {s : AppState} (id : String) (h : Reachable P s)
      (hmem : id ∈ noteIds s.notes) : Reachable P (togglePin s id)

/-- Every id of the set is the id of a note of the collection. -/
def RefersToNotes (ids : IdSet) (notes : List Note) : Prop := ∀ id ∈ ids, id ∈ noteIds notes

/-- The invariant of §3: selection, favorites and pins hold only ids of existing notes. -/
def NoDangling (s : AppState) : Prop :=
  RefersToNotes s.selectedNotes s.notes ∧ RefersToNotes s.favoriteNotes s.notes ∧
    RefersToNotes s.pinnedNotes s.notes

/-- The invariant `updatedAt ≥ createdAt` of the collection. -/
def TimestampsOrdered (notes : List Note) : Prop := ∀ n ∈ notes, n.createdAt ≤ n.updatedAt

/-! ## Statistics -/

/-- The ids of the constant `CATEGORIES` (lines 16-22), in its order. -/
def CATEGORIES : List String := ["personal", "work", "ideas", "todos", "important"]

/-- The keys of the constant `PRIORITIES` (lines 25-29), in the order of `Object.keys`. -/
def PRIORITIES : List String := ["low", "medium", "high"]

/-- The pieces of `text.split(/\s+/)` on the characters of the text; `inRun` tells that the
character before was white space, so that a run of white space separates once.  The class
`\s` is the set of `isWhiteSpace`. -/
def splitWhitespaceFrom : Bool → List Char → List (List Char)
  | _, [] => [[]]
  | inRun, c :: s =>
    if isWhiteSpace c then
      if inRun then splitWhitespaceFrom true s else [] :: splitWhitespaceFrom true s
    else
      match splitWhitespaceFrom false s with
      | [] => [[c]]
      | piece :: rest => (c :: piece) :: rest

/-- The array `text.split(/\s+/)`. -/
def splitWhitespace (text : String) : List String :=
  (splitWhitespaceFrom false text.data).map String.mk

/-- The function `Math.round`: the nearest integer, a half going up.  The argument is the exact
quotient; the quotient of two integers below `2^50` in double precision rounds to the same
integer. -/
def mathRound (x : ℚ) : Int := ⌊x + 1 / 2⌋

/-- The number `set.size`. -/
def setSize (s : IdSet) : Nat := s.dedup.length

/-- The object the memo `statistics` returns. -/
structure Statistics where
  total : Nat
  active : Int
  archived : Nat
  categories : List (String × Nat)
  priorities : List (String × Nat)
  totalWords : Nat
  averageLength : Int
  favorites : Nat
  pinned : Nat

/-- The sum `notes.reduce((acc, note) => acc + note.text.split(/\s+/).length, 0)`
(lines 210-212). -/
def totalWords (notes : List Note) : Nat :=
  notes.foldl (fun acc note => acc + (splitWhitespace note.text).length) 0

/-- The memo `statistics` (lines 198-226). -/
def statistics (s : AppState) : Statistics :=
  let total := s.notes.length
  let archived := (s.notes.filter (fun n => n.archived)).length
  let active : Int := (total : Int) - (archived : Int)
  let categories :=
    CATEGORIES.map (fun cat => (cat, (s.notes.filter (fun n => n.category == cat)).length))
  let priorities :=
    PRIORITIES.map (fun priority =>
      (priority, (s.notes.filter (fun n => n.priority == priority)).length))
  let totalWords := totalWords s.notes
  let averageLength : Int :=
    if total > 0 then mathRound ((totalWords : ℚ) / (total : ℚ)) else 0
  { total := total
    active := active
    archived := archived
    categories := categories
    priorities := priorities
    totalWords := totalWords
    averageLength := averageLength
    favorites := setSize s.favoriteNotes
    pinned := setSize s.pinnedNotes }

/-! ## Export -/

/-- The double quote character. -/
def quoteChar : Char := Char.ofNat 34

/-- The one-character string of the double quote. -/
def quote : String := String.singleton quoteChar

/-- The replacement `text.replace(/"/g, '""')` on the characters of the text (line 483). -/
def replaceQuotesChars : List Char → List Char
  | [] => []
  | c :: s =>
    if c = quoteChar then quoteChar :: quoteChar :: replaceQuotesChars s
    else c :: replaceQuotesChars s

/-- The replacement `text.replace(/"/g, '""')`. -/
def replaceQuotes (text : String) : String := ⟨replaceQuotesChars text.data⟩

/-- The header `csvHeader` (line 481). -/
def csvHeader : String := "Title,Category,Priority,Created,Updated,Tags,Text\n"

/-- The row of a note in the CSV export: the template literal of line 483. -/
def csvRow (P : Platform) (note : Note) : String :=
  quote ++ note.title ++ quote ++ "," ++
  quote ++ note.category ++ quote ++ "," ++
  quote ++ note.priority ++ quote ++ "," ++
  quote ++ P.toLocaleString note.createdAt ++ quote ++ "," ++
  quote ++ P.toLocaleString note.updatedAt ++ quote ++ "," ++
  quote ++ strOr (String.intercalate "; " note.tags) "" ++ quote ++ "," ++
  quote ++ replaceQuotes note.text ++ quote

/-- The block of a note in the text export: the template literal of line 475. -/
def txtBlock (P : Platform) (note : Note) : String :=
  "Title: " ++ note.title ++ "\nCategory: " ++ note.category ++
  "\nPriority: " ++ note.priority ++
  "\nCreated: " ++ P.toLocaleString note.createdAt ++
  "\nTags: " ++ strOr (String.intercalate ", " note.tags) "None" ++
  "\n\n" ++ note.text ++ "\n\n" ++ String.mk (List.replicate 50 (Char.ofNat 61)) ++ "\n\n"

/-- The file `exportNotes` hands to the browser: the content of the blob, the name and the
type. -/
structure ExportFile where
  content : String
  filename : String
  mimeType : String
  deriving DecidableEq, Repr

/-- The array `dataToExport` (lines 466-468). -/
def dataToExport (s : AppState) : List Note :=
  if s.showArchived then s.notes.filter (fun n => n.archived)
  else s.notes.filter (fun n => !n.archived)

/-- The `switch (exportFormat)` of `exportNotes` (lines 472-493), on the array
`dataToExport`. -/
def exportContent (P : Platform) (exportFormat : String) (dataToExport : List Note) :
    ExportFile :=
  if exportFormat = "txt" then
    { content := String.join (dataToExport.map (txtBlock P))
      filename := "notes.txt"
      mimeType := "text/plain" }
  else if exportFormat = "csv" then
    { content := csvHeader ++ String.intercalate "\n" (dataToExport.map (csvRow P))
      filename := "notes.csv"
      mimeType := "text/csv" }
  else
    { content := P.jsonStringify dataToExport
      filename := "notes.json"
      mimeType := "application/json" }

/-- The handler `exportNotes` (lines 465-504): the file it builds. -/
def exportNotes (P : Platform) (s : AppState) : ExportFile :=
  exportContent P s.exportFormat (dataToExport s)

/-! ## Select all, and the note of an edit -/

/-- The branch `case "a"` of `handleKeyboard` (lines 169-174) as a function of the array
`filtered` that the handler reads. -/
def selectAllWith (view : List Note) (s : AppState) : AppState :=
  if view.length > 0 then
    { s with selectedNotes := setOfList (view.map (fun n => n.id)) }
  else s

/-- A string kept in `localStorage`, represented by the value that `JSON.stringify` wrote:
the collection (key `notes-v2`), a backup object `{notes, timestamp, version}`, or plain
text (draft, theme). -/
inductive StoredValue where
  | collection (notes : List Note)
  | backup (notes : List Note) (timestamp : Int) (version : String)
  | text (value : String)
  deriving DecidableEq, Repr

/-- The store `localStorage`: the keys with their values, the key written last in front. -/
abbrev Storage := List (String × StoredValue)

/-- The call `localStorage.setItem(key, value)`. -/
def setItem (st : Storage) (key : String) (value : StoredValue) : Storage :=
  (key, value) :: st.filter (fun kv => kv.1 != key)

/-- The call `localStorage.getItem(key)`; `none` is `null`. -/
def getItem (st : Storage) (key : String) : Option StoredValue :=
  (st.find? (fun kv => kv.1 == key)).map (fun kv => kv.2)

/-- What the persistence effect writes: `localStorage` and the cell `lastBackup`. -/
structure Persisted where
  localStorage : Storage
  lastBackup : Option Int
  deriving DecidableEq, Repr

/-- The effect that persists the notes (lines 116-129); it runs after a render in which the
cell `notes` has changed.  The time `now` is what `Date.now()` returns. -/
def persistNotes (p : Persisted) (notes : List Note) (now : Int) : Persisted :=
  let stored := setItem p.localStorage "notes-v2" (.collection notes)
  if notes.length > 0 then
    { localStorage := setItem stored "notes-backup" (.backup notes now "2.0")
      lastBackup := some now }
  else
    { p with localStorage := stored }

/-! ## Predicates and example states of the statements -/

/-- A host for evaluating the handlers on examples: lower case of the letters `A` to `Z`,
comparison of strings by code point, no valid date, a date text for the time 0 only, and the
ids of the notes in place of their JSON text. -/
def basicHost : Platform where
  toLowerCase := fun s => ⟨s.data.map Char.toLower⟩
  localeCompare := fun a b => if a < b then -1 else if a = b then 0 else 1
  dateGetTime := fun _ => none
  toLocaleString := fun ts => if ts = 0 then "1/1/1970, 12:00:00 AM" else "later"
  jsonStringify := fun notes => String.join (notes.map (fun n => n.id))

/-- A note for examples: the note `addNote` builds from the draft `text` with the initial
values of the composer, at time 0. -/
def exampleNote (id text : String) : Note where
  id := id
  text := text
  title := deriveTitle text
  category := "personal"
  priority := "medium"
  tags := []
  color := "#ffffff"
  createdAt := 0
  updatedAt := 0
  archived := false
  reminder := none

/-- The state after: type the draft `x`, add the note (id `a`), pin it, mark it favorite,
select it, and delete the selection with `bulkDelete`. -/
def afterBulkDelete : AppState :=
  bulkDelete
    (toggleNoteSelection
      (toggleFavorite
        (togglePin (addNote basicHost (setField initialState (.draft "x")) "a" 1) "a") "a") "a")
    true

/-- The conjunction of the filters of the view, for one note. -/
def passesFilters (P : Platform) (s : AppState) (n : Note) : Bool :=
  (n.archived == s.showArchived) &&
  (searchQuery P s == "" || matchesQuery P (searchQuery P s) n) &&
  (s.filterCategory == "all" || n.category == s.filterCategory) &&
  (s.filterPriority == "all" || n.priority == s.filterPriority)

/-- A state for the examples of the view: three notes `a`, `b`, `c` created at times 0, 0
and 7, with priorities `low`, `high`, `medium`. -/
def viewExample : AppState :=
  { initialState with
    notes := [{ exampleNote "a" "one" with priority := "low" },
              { exampleNote "b" "two" with priority := "high" },
              { exampleNote "c" "three" with priority := "medium", createdAt := 7,
                                             updatedAt := 7 }] }

/-- The state `viewExample` with the note `b` pinned and the sort key `oldest`. -/
def pinnedExample : AppState := { viewExample with pinnedNotes := ["b"], sortBy := "oldest" }

/-- The pin tier of a note: 0 for a pinned note, 1 for the others. -/
def tierOf (pinned : IdSet) (n : Note) : Nat := if setHas pinned n.id then 0 else 1

/-- The state `viewExample` with the sort key `priority`. -/
def priorityExample : AppState := { viewExample with sortBy := "priority" }

/-- The text `say "hi"`, with its two double quotes. -/
def quotedText : String := "say " ++ quote ++ "hi" ++ quote

/-- The state after: type the draft `say "hi"`, add the note (id `a`, time 0), choose the
export format `csv`. -/
def csvExample : AppState :=
  setField (addNote basicHost (setField initialState (.draft quotedText)) "a" 0)
    (.exportFormat "csv")

/-- The store after the note `a` was persisted at time 1, then removed with `removeNote`, and
the empty collection persisted at time 2. -/
def afterLastNoteDeleted : Persisted :=
  persistNotes
    (persistNotes { localStorage := [], lastBackup := none } [exampleNote "a" "x"] 1)
    (removeNote { initialState with notes := [exampleNote "a" "x"] } "a").notes 2

/-! ## Sets of ids -/

theorem setHas_iff (s : IdSet) (id : String) : setHas s id = true ↔ id ∈ s := by
  simp [setHas]

theorem mem_setDelete (s : IdSet) (x y : String) : y ∈ setDelete s x ↔ y ∈ s ∧ y ≠ x := by
  simp [setDelete]

theorem mem_setAdd (s : IdSet) (x y : String) : y ∈ setAdd s x ↔ y ∈ s ∨ y = x := by
  unfold setAdd
  split
  · rename_i h
    rw [setHas_iff] at h
    constructor
    · exact Or.inl
    · rintro (h1 | rfl)
      · exact h1
      · exact h
  · simp

theorem setHas_setDelete (s : IdSet) (x y : String) :
    setHas (setDelete s x) y = (setHas s y && (y != x)) := by
  rw [Bool.eq_iff_iff]
  simp [setHas_iff, mem_setDelete]

/-! ## C1: removeNote -/

/-- C1: after `removeNote(x)` the collection holds no note with id `x`, and `x` is in none of
the selection, favorite and pinned sets; the notes with another id are kept as they were, in
the same order and number, and membership of every other id in the three sets is unchanged. -/
theorem removeNote_cascades (s : AppState) (x : String) :
    (∀ n ∈ (removeNote s x).notes, n.id ≠ x) ∧
    setHas (removeNote s x).selectedNotes x = false ∧
    setHas (removeNote s x).favoriteNotes x = false ∧
    setHas (removeNote s x).pinnedNotes x = false ∧
    (removeNote s x).notes.Sublist s.notes ∧
    (∀ n : Note, n.id ≠ x → (removeNote s x).notes.count n = s.notes.count n) ∧
    (∀ y : String, y ≠ x →
      setHas (removeNote s x).selectedNotes y = setHas s.selectedNotes y ∧
      setHas (removeNote s x).favoriteNotes y = setHas s.favoriteNotes y ∧
      setHas (removeNote s x).pinnedNotes y = setHas s.pinnedNotes y) := by
  refine ⟨?_, ?_, ?_, ?_, ?_, ?_, ?_⟩
  · intro n hn
    simp [removeNote] at hn
    exact hn.2
  · simp [removeNote, setHas_setDelete]
  · simp [removeNote, setHas_setDelete]
  · simp [removeNote, setHas_setDelete]
  · exact List.filter_sublist _
  · intro n hn
    simp only [removeNote]
    rw [List.count_filter]
    simpa using hn
  · intro y hy
    simp [removeNote, setHas_setDelete, hy]

/-- C1 at a concrete state: two notes `b` and `a`, both pinned and selected; after
`removeNote("b")` the id `a` is still pinned. -/
theorem removeNote_cascades_witness :
    setHas (removeNote
      { initialState with
        notes := [exampleNote "b" "second", exampleNote "a" "first"]
        selectedNotes := ["b", "a"], favoriteNotes := ["b"], pinnedNotes := ["a", "b"] }
      "b").pinnedNotes "a" =
    setHas ["a", "b"] "a" :=
  ((removeNote_cascades
      { initialState with
        notes := [exampleNote "b" "second", exampleNote "a" "first"]
        selectedNotes := ["b", "a"], favoriteNotes := ["b"], pinnedNotes := ["a", "b"] }
      "b").2.2.2.2.2.2 "a" (by decide)).2.2

/-! ## C2: no dangling references -/

/-- C2, the code at the failing input: the state `afterBulkDelete` is reachable from the empty
store, its collection is empty, and the id `a` of the deleted note is still in the favorite set
and in the pinned set, so the invariant `NoDangling` does not hold there. -/
theorem bulkDelete_leaves_dangling_ids :
    Reachable basicHost afterBulkDelete ∧
    afterBulkDelete.notes = [] ∧
    afterBulkDelete.selectedNotes = [] ∧
    afterBulkDelete.favoriteNotes = ["a"] ∧
    afterBulkDelete.pinnedNotes = ["a"] ∧
    ¬ NoDangling afterBulkDelete := by
  refine ⟨?_, by decide, by decide, by decide, by decide, ?_⟩
  · refine Reachable.bulkDelete true (Reachable.toggleNoteSelection "a"
      (Reachable.toggleFavorite "a" (Reachable.togglePin "a" (Reachable.addNote "a" 1
        (Reachable.setField (.draft "x")
          (Reachable.init initialState rfl rfl rfl rfl))) ?_) ?_) ?_)
    · decide
    · decide
    · decide
  · intro h
    have hp := h.2.2 "a" (by decide)
    have hn : afterBulkDelete.notes = [] := by decide
    rw [hn] at hp
    simp [noteIds] at hp

/-! ## C3 and C4: import -/

/-- C3, the code at the failing input: for the root `{"not":"an array"}` the callback leaves
the collection unchanged and shows no alert, while for text that `JSON.parse` rejects it shows
the alert `invalidFileMessage`. -/
theorem importNotes_nonArray_is_silent (s : AppState) (uid : Nat → String) (now : Int) :
    (importNotes s (some (.object [("not", "an array")])) uid now).notes = s.notes ∧
    (importNotes s (some (.object [("not", "an array")])) uid now).alerts = s.alerts ∧
    (importNotes s none uid now).notes = s.notes ∧
    (importNotes s none uid now).alerts = s.alerts ++ [invalidFileMessage] := by
  simp [importNotes]

theorem mem_importedNotes (uid : Nat → String) (now : Int) (elems : List Note) :
    ∀ (i : Nat) (n : Note), n ∈ importedNotes uid now i elems →
      n.createdAt = now ∧ n.updatedAt = now := by
  induction elems with
  | nil => intro i n hn; simp [importedNotes] at hn
  | cons e rest ih =>
    intro i n hn
    simp only [importedNotes, List.mem_cons] at hn
    rcases hn with rfl | hn
    · exact ⟨rfl, rfl⟩
    · exact ih (i + 1) n hn

theorem timestampsOrdered_map (notes : List Note) (f : Note → Note)
    (hf : ∀ n ∈ notes, (f n).createdAt ≤ (f n).updatedAt) :
    TimestampsOrdered (notes.map f) := by
  intro m hm
  rw [List.mem_map] at hm
  obtain ⟨n, hn, rfl⟩ := hm
  exact hf n hn

theorem timestampsOrdered_filter (notes : List Note) (p : Note → Bool)
    (h : TimestampsOrdered notes) : TimestampsOrdered (notes.filter p) :=
  fun n hn => h n (List.mem_of_mem_filter hn)

theorem addNote_of_blank (P : Platform) (s : AppState) (newId : String) (now : Int)
    (h : trim s.draft = "") : addNote P s newId now = s := by
  simp [addNote, h]

theorem saveEdit_of_blank (s : AppState) (now : Int) (h : trim s.editText = "") :
    saveEdit s now = s := by
  simp [saveEdit, h]

/-- C5: from a collection in which every note has `createdAt ≤ updatedAt`, and at a time `now`
that is not earlier than any `createdAt` of the collection, each of the nine mutators gives a
collection in which every note has `createdAt ≤ updatedAt`. -/
theorem mutators_keep_timestamps_ordered (P : Platform) (s : AppState) (now : Int)
    (hinv : TimestampsOrdered s.notes) (hnow : ∀ n ∈ s.notes, n.createdAt ≤ now) :
    (∀ newId : String, TimestampsOrdered (addNote P s newId now).notes) ∧
    TimestampsOrdered (saveEdit s now).notes ∧
    (∀ id : String, TimestampsOrdered (archiveNote s id now).notes) ∧
    (∀ (note : Note) (newId : String),
      TimestampsOrdered (duplicateNote s note newId now).notes) ∧
    TimestampsOrdered (bulkArchive s now).notes ∧
    (∀ category : String, TimestampsOrdered (bulkChangeCategory s category now).notes) ∧
    (∀ (parsed : Option JsonRoot) (uid : Nat → String),
      TimestampsOrdered (importNotes s parsed uid now).notes) ∧
    (∀ id : String, TimestampsOrdered (removeNote s id).notes) ∧
    (∀ confirmed : Bool, TimestampsOrdered (bulkDelete s confirmed).notes) := by
  refine ⟨?_, ?_, ?_, ?_, ?_, ?_, ?_, ?_, ?_⟩
  · intro newId
    by_cases h : trim s.draft = ""
    · rw [addNote_of_blank P s newId now h]
      exact hinv
    · intro n hn
      simp only [addNote, h, if_false, List.mem_cons] at hn
      rcases hn with rfl | hn
      · exact le_refl _
      · exact hinv n hn
  · by_cases h : trim s.editText = ""
    · rw [saveEdit_of_blank s now h]
      exact hinv
    · simp only [saveEdit, h, if_false]
      apply timestampsOrdered_map
      intro n hn
      split
      · exact hnow n hn
      · exact hinv n hn
  · intro id
    apply timestampsOrdered_map
    intro n hn
    split
    · exact hnow n hn
    · exact hinv n hn
  · intro note newId n hn
    simp only [duplicateNote, List.mem_cons] at hn
    rcases hn with rfl | hn
    · exact le_refl _
    · exact hinv n hn
  · apply timestampsOrdered_map
    intro n hn
    split
    · exact hnow n hn
    · exact hinv n hn
  · intro category
    apply timestampsOrdered_map
    intro n hn
    split
    · exact hnow n hn
    · exact hinv n hn
  · intro parsed uid
    unfold importNotes
    split
    · exact hinv
    · split
      · intro n hn
        simp only [List.mem_append] at hn
        rcases hn with hn | hn
        · obtain ⟨hc, hu⟩ := mem_importedNotes uid now _ 0 n hn
          rw [hc, hu]
        · exact hinv n hn
      · exact hinv
  · intro id
    exact timestampsOrdered_filter _ _ hinv
  · intro confirmed
    unfold bulkDelete
    split
    · exact timestampsOrdered_filter _ _ hinv
    · exact hinv

/-- C5 at a concrete input: a note created at time 0, archived at time 5. -/
theorem mutators_keep_timestamps_ordered_witness :
    TimestampsOrdered
      (archiveNote { initialState with notes := [exampleNote "a" "x"] } "a" 5).notes :=
  (mutators_keep_timestamps_ordered basicHost
    { initialState with notes := [exampleNote "a" "x"] } 5
    (by unfold TimestampsOrdered; decide) (by decide)).2.2.1 "a"

/-! ## C6: duplicateNote -/

theorem filterNotes_eq_filter (P : Platform) (s : AppState) :
    filterNotes P s = s.notes.filter (passesFilters P s) := by
  unfold filterNotes
  by_cases h1 : s.showArchived = true <;> by_cases h2 : searchQuery P s = "" <;>
    by_cases h3 : s.filterCategory = "all" <;> by_cases h4 : s.filterPriority = "all" <;>
    simp only [h1, h2, h3, h4, ne_eq, not_true_eq_false, not_false_eq_true, if_true, if_false,
      Bool.false_eq_true, List.filter_filter] <;>
    apply List.filter_congr <;>
    intro n _ <;>
    rw [Bool.eq_iff_iff] <;>
    simp [passesFilters, h1, h2, h3, h4] <;>
    tauto

theorem mem_filterNotes (P : Platform) (s : AppState) (n : Note) :
    n ∈ filterNotes P s ↔ n ∈ s.notes ∧ passesFilters P s n = true := by
  rw [filterNotes_eq_filter, List.mem_filter]

theorem orderedInsert_perm {α : Type} (cmp : α → α → Option Int) (a : α) :
    ∀ l : List α, (orderedInsert cmp a l).Perm (a :: l) := by
  intro l
  induction l with
  | nil => exact List.Perm.refl _
  | cons b l ih =>
    unfold orderedInsert
    split
    · exact List.Perm.refl _
    · exact (ih.cons b).trans (List.Perm.swap a b l)

theorem arraySort_perm {α : Type} (cmp : α → α → Option Int) :
    ∀ l : List α, (arraySort cmp l).Perm l := by
  intro l
  induction l with
  | nil => exact List.Perm.refl _
  | cons a l ih => exact (orderedInsert_perm cmp a _).trans (ih.cons a)

theorem filtered_perm (P : Platform) (s : AppState) :
    (filtered P s).Perm (s.notes.filter (passesFilters P s)) := by
  unfold filtered
  rw [← filterNotes_eq_filter]
  exact arraySort_perm _ _

theorem mem_filtered (P : Platform) (s : AppState) (n : Note) :
    n ∈ filtered P s ↔ n ∈ s.notes ∧ passesFilters P s n = true := by
  rw [(filtered_perm P s).mem_iff, List.mem_filter]

/-! ## C7: which notes are in the view -/

theorem compareNotes_pinned_unpinned (P : Platform) (pinned : IdSet) (sortBy : String)
    (a b : Note) (ha : setHas pinned a.id = true) (hb : setHas pinned b.id = false) :
    sortValue (compareNotes P pinned sortBy a b) = -1 := by
  simp [compareNotes, ha, hb, sortValue]

theorem compareNotes_unpinned_pinned (P : Platform) (pinned : IdSet) (sortBy : String)
    (a b : Note) (ha : setHas pinned a.id = false) (hb : setHas pinned b.id = true) :
    sortValue (compareNotes P pinned sortBy a b) = 1 := by
  simp [compareNotes, ha, hb, sortValue]

theorem compareNotes_same_tier (P : Platform) (pinned : IdSet) (sortBy : String)
    (a b : Note) (h : setHas pinned a.id = setHas pinned b.id) :
    compareNotes P pinned sortBy a b = keyCompare P sortBy a b := by
  cases hb : setHas pinned b.id <;> simp [compareNotes, h, hb]

theorem mem_orderedInsert {α : Type} (cmp : α → α → Option Int) (a x : α) (l : List α) :
    x ∈ orderedInsert cmp a l ↔ x = a ∨ x ∈ l := by
  rw [(orderedInsert_perm cmp a l).mem_iff, List.mem_cons]

/-- Insertion keeps the tiers apart, for a comparator that puts every element of the first
tier before every element of the second one. -/
theorem orderedInsert_tiers {α : Type} (cmp : α → α → Option Int) (T : α → Bool)
    (h1 : ∀ a b, T a = true → T b = false → sortValue (cmp a b) ≤ 0)
    (h2 : ∀ a b, T a = false → T b = true → 0 < sortValue (cmp a b)) (a : α) :
    ∀ l : List α, l.Pairwise (fun x y => T y = true → T x = true) →
      (orderedInsert cmp a l).Pairwise (fun x y => T y = true → T x = true) := by
  intro l
  induction l with
  | nil => intro _; simp [orderedInsert]
  | cons b l ih =>
    intro hl
    rw [List.pairwise_cons] at hl
    unfold orderedInsert
    split
    · rename_i hle
      rw [List.pairwise_cons]
      refine ⟨?_, List.pairwise_cons.2 hl⟩
      intro y hy hTy
      cases hTa : T a with
      | true => rfl
      | false =>
        exfalso
        have hTb : T b = false := by
          cases hTb : T b with
          | false => rfl
          | true => exact absurd hle (not_le.2 (h2 a b hTa hTb))
        rcases List.mem_cons.1 hy with rfl | hy
        · rw [hTb] at hTy; cases hTy
        · have := hl.1 y hy hTy
          rw [hTb] at this; cases this
    · rename_i hgt
      rw [List.pairwise_cons]
      refine ⟨?_, ih hl.2⟩
      intro y hy hTy
      rcases (mem_orderedInsert cmp a y l).1 hy with rfl | hy
      · cases hTb : T b with
        | true => rfl
        | false => exact absurd (h1 y b hTy hTb) hgt
      · exact hl.1 y hy hTy

theorem arraySort_tiers {α : Type} (cmp : α → α → Option Int) (T : α → Bool)
    (h1 : ∀ a b, T a = true → T b = false → sortValue (cmp a b) ≤ 0)
    (h2 : ∀ a b, T a = false → T b = true → 0 < sortValue (cmp a b)) :
    ∀ l : List α, (arraySort cmp l).Pairwise (fun x y => T y = true → T x = true) := by
  intro l
  induction l with
  | nil => simp [arraySort]
  | cons a l ih => exact orderedInsert_tiers cmp T h1 h2 a _ ih

theorem filtered_tiers (P : Platform) (s : AppState) :
    (filtered P s).Pairwise
      (fun x y => setHas s.pinnedNotes y.id = true → setHas s.pinnedNotes x.id = true) := by
  unfold filtered
  refine arraySort_tiers (compareNotes P s.pinnedNotes s.sortBy)
    (fun n => setHas s.pinnedNotes n.id) ?_ ?_ (filterNotes P s)
  · intro a b ha hb
    rw [compareNotes_pinned_unpinned P _ _ a b ha hb]
    decide
  · intro a b ha hb
    rw [compareNotes_unpinned_pinned P _ _ a b ha hb]
    decide

/-- C8: for every state (collection, pin set, sort key, filters), a note of the view whose id
is in the pin set stands at a smaller index than every note of the view whose id is not in the
pin set. -/
theorem filtered_pinned_first (P : Platform) (s : AppState) (i j : Nat) (a b : Note)
    (hi : (filtered P s)[i]? = some a) (hj : (filtered P s)[j]? = some b)
    (ha : setHas s.pinnedNotes a.id = true) (hb : setHas s.pinnedNotes b.id = false) :
    i < j := by
  by_contra hlt
  have hne : i ≠ j := by
    rintro rfl
    rw [hi] at hj
    cases hj
    rw [ha] at hb
    cases hb
  have hji : j < i := by omega
  obtain ⟨hi', rfl⟩ := List.getElem?_eq_some.1 hi
  obtain ⟨hj', rfl⟩ := List.getElem?_eq_some.1 hj
  have := (List.pairwise_iff_getElem.1 (filtered_tiers P s)) j i hj' hi' hji ha
  rw [hb] at this
  cases this

/-- C8 at a concrete input: in `pinnedExample` the view is `b`, `a`, `c`; the pinned note `b`
at index 0 stands before the unpinned note `a` at index 1. -/
theorem filtered_pinned_first_witness :
    (filtered basicHost pinnedExample).map (fun n => n.id) = ["b", "a", "c"] ∧ 0 < 1 :=
  ⟨by decide,
    filtered_pinned_first basicHost pinnedExample 0 1
      { exampleNote "b" "two" with priority := "high" }
      { exampleNote "a" "one" with priority := "low" } (by decide) (by decide) (by decide)
      (by decide)⟩

/-! ## C9: the order inside a pin tier -/

/-- Insertion keeps a list sorted by the key `f`, when the comparator agrees with `f` on the
inserted element and the elements of the list. -/
theorem orderedInsert_sorted_of_key {α β : Type} [LinearOrder β] (cmp : α → α → Option Int)
    (f : α → β) (a : α) :
    ∀ l : List α, (∀ b ∈ l, (sortValue (cmp a b) ≤ 0 ↔ f a ≤ f b)) →
      l.Pairwise (fun x y => f x ≤ f y) →
      (orderedInsert cmp a l).Pairwise (fun x y => f x ≤ f y) := by
  intro l
  induction l with
  | nil => intro _ _; simp [orderedInsert]
  | cons b l ih =>
    intro hcmp hl
    rw [List.pairwise_cons] at hl
    unfold orderedInsert
    split
    · rename_i hle
      have hab : f a ≤ f b := (hcmp b (List.mem_cons_self b l)).1 hle
      rw [List.pairwise_cons]
      refine ⟨?_, List.pairwise_cons.2 hl⟩
      intro y hy
      rcases List.mem_cons.1 hy with rfl | hy
      · exact hab
      · exact le_trans hab (hl.1 y hy)
    · rename_i hgt
      have hba : f b ≤ f a := by
        rcases le_total (f a) (f b) with h | h
        · exact absurd ((hcmp b (List.mem_cons_self b l)).2 h) hgt
        · exact h
      rw [List.pairwise_cons]
      refine ⟨?_, ih (fun y hy => hcmp y (List.mem_cons_of_mem b hy)) hl.2⟩
      intro y hy
      rcases (mem_orderedInsert cmp a y l).1 hy with rfl | hy
      · exact hba
      · exact hl.1 y hy

/-- The sort orders a list by the key `f`, when the comparator agrees with `f` on the elements
of the list. -/
theorem arraySort_sorted_of_key {α β : Type} [LinearOrder β] (cmp : α → α → Option Int)
    (f : α → β) :
    ∀ l : List α, (∀ a ∈ l, ∀ b ∈ l, (sortValue (cmp a b) ≤ 0 ↔ f a ≤ f b)) →
      (arraySort cmp l).Pairwise (fun x y => f x ≤ f y) := by
  intro l
  induction l with
  | nil => intro _; simp [arraySort]
  | cons a l ih =>
    intro h
    refine orderedInsert_sorted_of_key cmp f a _ ?_ ?_
    · intro b hb
      exact h a (List.mem_cons_self a l) b
        (List.mem_cons_of_mem a ((arraySort_perm cmp l).mem_iff.1 hb))
    · exact ih (fun x hx y hy => h x (List.mem_cons_of_mem a hx) y (List.mem_cons_of_mem a hy))

theorem compareNotes_le_iff {β : Type} [LinearOrder β] (P : Platform) (pinned : IdSet)
    (sortBy : String) (k : Note → β) (a b : Note)
    (hk : sortValue (keyCompare P sortBy a b) ≤ 0 ↔ k a ≤ k b) :
    sortValue (compareNotes P pinned sortBy a b) ≤ 0 ↔
      toLex (tierOf pinned a, k a) ≤ toLex (tierOf pinned b, k b) := by
  rw [Prod.Lex.le_iff]
  cases ha : setHas pinned a.id <;> cases hb : setHas pinned b.id
  · rw [compareNotes_same_tier P pinned sortBy a b (by rw [ha, hb]), hk]
    simp [tierOf, ha, hb]
  · rw [compareNotes_unpinned_pinned P pinned sortBy a b ha hb]
    simp [tierOf, ha, hb]
  · rw [compareNotes_pinned_unpinned P pinned sortBy a b ha hb]
    simp [tierOf, ha, hb]
  · rw [compareNotes_same_tier P pinned sortBy a b (by rw [ha, hb]), hk]
    simp [tierOf, ha, hb]

/-- Inside a pin tier the view is ordered by the key `k`, when the `switch` of the comparator
agrees with `k` on the notes of the collection. -/
theorem filtered_sorted_of_key {β : Type} [LinearOrder β] (P : Platform) (s : AppState)
    (k : Note → β)
    (hk : ∀ a ∈ s.notes, ∀ b ∈ s.notes,
      (sortValue (keyCompare P s.sortBy a b) ≤ 0 ↔ k a ≤ k b)) :
    (filtered P s).Pairwise
      (fun a b => setHas s.pinnedNotes a.id = setHas s.pinnedNotes b.id → k a ≤ k b) := by
  have hsorted := arraySort_sorted_of_key (compareNotes P s.pinnedNotes s.sortBy)
    (fun n => toLex (tierOf s.pinnedNotes n, k n)) (filterNotes P s)
    (fun a ha b hb => compareNotes_le_iff P s.pinnedNotes s.sortBy k a b
      (hk a ((mem_filterNotes P s a).1 ha).1 b ((mem_filterNotes P s b).1 hb).1))
  refine List.Pairwise.imp ?_ hsorted
  intro a b hle htier
  rw [Prod.Lex.le_iff] at hle
  have ht : tierOf s.pinnedNotes a = tierOf s.pinnedNotes b := by
    simp only [tierOf, htier]
  rcases hle with hlt | ⟨_, hle⟩
  · exact absurd ht (ne_of_lt hlt)
  · exact hle

theorem priorityOrder_of_mem (p : String) (h : p ∈ ["low", "medium", "high"]) :
    priorityOrder p = some 1 ∨ priorityOrder p = some 2 ∨ priorityOrder p = some 3 := by
  simp only [List.mem_cons, List.mem_singleton, List.not_mem_nil, or_false] at h
  rcases h with rfl | rfl | rfl
  · exact Or.inl (by decide)
  · exact Or.inr (Or.inl (by decide))
  · exact Or.inr (Or.inr (by decide))

/-- C9: inside a pin tier the view follows the active key.  For `priority`, when every note of
the collection has a priority among `low`, `medium`, `high`, a note that stands before another
one of its tier has a rank (`high` 3, `medium` 2, `low` 1) not lower than the later one; with
no pins, notes of priorities `low`, `high`, `medium` come out as `high`, `medium`, `low`.  For
`newest` the `createdAt` of an earlier note is not smaller than that of a later one, for
`oldest` not greater.  For `category`, when `localeCompare` orders the categories of the
collection as the lexicographic order does, the category of an earlier note is not greater than
that of a later one. -/
theorem filtered_ordered_within_tier (P : Platform) (s : AppState) :
    (s.sortBy = "priority" → (∀ n ∈ s.notes, n.priority ∈ ["low", "medium", "high"]) →
      (filtered P s).Pairwise (fun a b =>
        setHas s.pinnedNotes a.id = setHas s.pinnedNotes b.id →
        ∃ ra rb : Int, priorityOrder a.priority = some ra ∧
          priorityOrder b.priority = some rb ∧ rb ≤ ra)) ∧
    (s.sortBy = "priority" → s.pinnedNotes = [] → ∀ a b c : Note,
      filterNotes P s = [a, b, c] → a.priority = "low" → b.priority = "high" →
      c.priority = "medium" → filtered P s = [b, c, a]) ∧
    (s.sortBy = "newest" →
      (filtered P s).Pairwise (fun a b =>
        setHas s.pinnedNotes a.id = setHas s.pinnedNotes b.id → b.createdAt ≤ a.createdAt)) ∧
    (s.sortBy = "oldest" →
      (filtered P s).Pairwise (fun a b =>
        setHas s.pinnedNotes a.id = setHas s.pinnedNotes b.id → a.createdAt ≤ b.createdAt)) ∧
    (s.sortBy = "category" →
      (∀ a ∈ s.notes, ∀ b ∈ s.notes,
        (P.localeCompare a.category b.category ≤ 0 ↔ a.category ≤ b.category)) →
      (filtered P s).Pairwise (fun a b =>
        setHas s.pinnedNotes a.id = setHas s.pinnedNotes b.id → a.category ≤ b.category)) := by
  refine ⟨?_, ?_, ?_, ?_, ?_⟩
  · intro hs hvalid
    have hrank : ∀ n ∈ s.notes, ∃ r : Int, priorityOrder n.priority = some r := by
      intro n hn
      rcases priorityOrder_of_mem n.priority (hvalid n hn) with h | h | h
      · exact ⟨1, h⟩
      · exact ⟨2, h⟩
      · exact ⟨3, h⟩
    have hsorted := filtered_sorted_of_key P s (fun n => -(priorityOrder n.priority).getD 0)
      (by
        intro a ha b hb
        obtain ⟨ra, hra⟩ := hrank a ha
        obtain ⟨rb, hrb⟩ := hrank b hb
        simp only [keyCompare, hs, hra, hrb, jsSub, sortValue, Option.getD_some]
        simp only [String.reduceEq, if_false, if_true, Option.getD_some]
        constructor <;> intro h <;> omega)
    refine List.Pairwise.imp_of_mem ?_ hsorted
    intro a b ha hb hle htier
    obtain ⟨ra, hra⟩ := hrank a ((mem_filtered P s a).1 ha).1
    obtain ⟨rb, hrb⟩ := hrank b ((mem_filtered P s b).1 hb).1
    refine ⟨ra, rb, hra, hrb, ?_⟩
    have := hle htier
    simp only [hra, hrb, Option.getD_some] at this
    omega
  · intro hs hp a b c hf ha hb hc
    unfold filtered
    rw [hf, hs, hp]
    simp [arraySort, orderedInsert, compareNotes, keyCompare, setHas, priorityOrder, jsSub,
      sortValue, ha, hb, hc]
  · intro hs
    have hsorted := filtered_sorted_of_key P s (fun n => -n.createdAt)
      (by
        intro a _ b _
        simp only [keyCompare, hs, sortValue, String.reduceEq, if_false, Option.getD_some]
        constructor <;> intro h <;> omega)
    refine List.Pairwise.imp ?_ hsorted
    intro a b hle htier
    have := hle htier
    simp only at this
    omega
  · intro hs
    have hsorted := filtered_sorted_of_key P s (fun n => n.createdAt)
      (by
        intro a _ b _
        simp only [keyCompare, hs, sortValue, if_true, Option.getD_some]
        constructor <;> intro h <;> omega)
    exact hsorted
  · intro hs hlc
    have hsorted := filtered_sorted_of_key P s (fun n => n.category)
      (by
        intro a ha b hb
        simp only [keyCompare, hs, sortValue, String.reduceEq, if_false, if_true,
          Option.getD_some]
        exact hlc a ha b hb)
    exact hsorted

/-- C9 at a concrete input: the notes `a`, `b`, `c` of priorities `low`, `high`, `medium`,
none pinned, come out in the order `b`, `c`, `a`. -/
theorem filtered_ordered_within_tier_witness :
    filtered basicHost priorityExample =
      [{ exampleNote "b" "two" with priority := "high" },
       { exampleNote "c" "three" with priority := "medium", createdAt := 7, updatedAt := 7 },
       { exampleNote "a" "one" with priority := "low" }] :=
  (filtered_ordered_within_tier basicHost priorityExample).2.1 rfl rfl
    { exampleNote "a" "one" with priority := "low" }
    { exampleNote "b" "two" with priority := "high" }
    { exampleNote "c" "three" with priority := "medium", createdAt := 7, updatedAt := 7 }
    (by decide) rfl rfl rfl

/-! ## C10: the sort is stable -/

theorem mem_setToggle (s : IdSet) (x y : String) (h : y ∈ setToggle s x) : y ∈ s ∨ y = x := by
  unfold setToggle at h
  split at h
  · exact Or.inl ((mem_setDelete s x y).1 h).1
  · exact (mem_setAdd s x y).1 h

theorem mem_foldl_setAdd (l : List String) :
    ∀ (acc : IdSet) (y : String), y ∈ l.foldl setAdd acc ↔ y ∈ acc ∨ y ∈ l := by
  induction l with
  | nil => intro acc y; simp
  | cons x l ih =>
    intro acc y
    rw [List.foldl_cons, ih, mem_setAdd, List.mem_cons, or_assoc]

theorem mem_setOfList (l : List String) (y : String) : y ∈ setOfList l ↔ y ∈ l := by
  simp [setOfList, mem_foldl_setAdd]

theorem noteIds_map_of_id (notes : List Note) (f : Note → Note) (hf : ∀ n, (f n).id = n.id) :
    noteIds (notes.map f) = noteIds notes := by
  simp [noteIds, List.map_map, Function.comp_def, hf]

theorem refersToNotes_nil (notes : List Note) : RefersToNotes [] notes := by
  intro id h
  cases h

theorem refersToNotes_toggle (ids : IdSet) (notes : List Note) (x : String)
    (h : RefersToNotes ids notes) (hx : x ∈ noteIds notes) :
    RefersToNotes (setToggle ids x) notes := by
  intro y hy
  rcases mem_setToggle ids x y hy with hy | rfl
  · exact h y hy
  · exact hx

/-- In every reachable state each selected id is the id of a note of the collection. -/
theorem selection_refers_to_notes (P : Platform) (s : AppState) (h : Reachable P s) :
    RefersToNotes s.selectedNotes s.notes := by
  induction h with
  | init s hn hs hf hp => rw [hs]; exact refersToNotes_nil _
  | setField i h ih => cases i <;> exact ih
  | @addNote s newId now h ih =>
    by_cases hd : trim s.draft = ""
    · rw [addNote_of_blank P s newId now hd]; exact ih
    · intro y hy
      simp only [addNote, hd, if_false] at hy
      simp only [addNote, hd, if_false, noteIds, List.map_cons, List.mem_cons]
      exact Or.inr (ih y hy)
  | @saveEdit s now h ih =>
    by_cases hd : trim s.editText = ""
    · rw [saveEdit_of_blank s now hd]; exact ih
    · intro y hy
      simp only [saveEdit, hd, if_false] at hy ⊢
      rw [noteIds_map_of_id _ _ (by intro n; split <;> rfl)]
      exact ih y hy
  | startEdit note h hmem ih => exact ih
  | cancelEdit h ih => exact ih
  | @removeNote s id h ih =>
    intro y hy
    simp only [removeNote, mem_setDelete] at hy
    have := ih y hy.1
    simp only [noteIds, List.mem_map] at this ⊢
    obtain ⟨n, hn, rfl⟩ := this
    exact ⟨n, List.mem_filter.2 ⟨hn, by simpa using hy.2⟩, rfl⟩
  | @archiveNote s id now h ih =>
    intro y hy
    simp only [archiveNote]
    rw [noteIds_map_of_id _ _ (by intro n; split <;> rfl)]
    exact ih y hy
  | @duplicateNote s note newId now h hmem ih =>
    intro y hy
    simp only [duplicateNote, noteIds, List.map_cons, List.mem_cons]
    exact Or.inr (ih y hy)
  | @importNotes s parsed uid now h ih =>
    intro y hy
    unfold importNotes at hy ⊢
    split
    · exact ih y hy
    · split
      · simp only [noteIds, List.map_append, List.mem_append]
        refine Or.inr (ih y ?_)
        simpa using hy
      · exact ih y (by simpa using hy)
  | @bulkDelete s confirmed h ih =>
    cases confirmed
    · exact ih
    · exact refersToNotes_nil _
  | bulkArchive now h ih => exact refersToNotes_nil _
  | bulkChangeCategory category now h ih => exact refersToNotes_nil _
  | @selectAll s h ih =>
    unfold selectAll
    split
    · intro y hy
      simp only [mem_setOfList, List.mem_map] at hy
      obtain ⟨n, hn, rfl⟩ := hy
      exact List.mem_map.2 ⟨n, ((mem_filtered P s n).1 hn).1, rfl⟩
    · exact ih
  | toggleNoteSelection id h hmem ih => exact refersToNotes_toggle _ _ id ih hmem
  | toggleFavorite id h hmem ih => exact ih
  | togglePin id h hmem ih => exact ih

/-! ## C11: word statistics -/

theorem foldl_add_length (notes : List Note) :
    ∀ acc : Nat,
      notes.foldl (fun acc note => acc + (splitWhitespace note.text).length) acc =
        acc + (notes.map (fun n => (splitWhitespace n.text).length)).sum := by
  induction notes with
  | nil => intro acc; simp
  | cons n rest ih =>
    intro acc
    simp only [List.foldl_cons, List.map_cons, List.sum_cons, ih]
    omega

theorem totalWords_eq_sum (notes : List Note) :
    totalWords notes = (notes.map (fun n => (splitWhitespace n.text).length)).sum := by
  simp [totalWords, foldl_add_length]

/-- The rounding of a quotient of natural numbers, a half going up, in integer arithmetic. -/
theorem mathRound_div (a b : Nat) (hb : 0 < b) :
    mathRound ((a : ℚ) / (b : ℚ)) = ((2 * a + b) / (2 * b) : Nat) := by
  have hb' : (b : ℚ) ≠ 0 := by exact_mod_cast (Nat.pos_iff_ne_zero.1 hb)
  have h : (a : ℚ) / (b : ℚ) + 1 / 2 = ((2 * a + b : Nat) : ℚ) / ((2 * b : Nat) : ℚ) := by
    push_cast
    field_simp
    ring
  rw [mathRound, h, Rat.floor_natCast_div_natCast]
  norm_cast

theorem statistics_totalWords (s : AppState) :
    (statistics s).totalWords = totalWords s.notes := rfl

theorem statistics_averageLength (s : AppState) :
    (statistics s).averageLength =
      if s.notes.length > 0
      then mathRound ((totalWords s.notes : ℚ) / (s.notes.length : ℚ)) else 0 := rfl

/-- C11: `totalWords` is the sum, over all notes of the collection whatever their archived
flag, of the number of pieces of `text.split(/\s+/)`; `averageLength` is 0 for the empty
collection and otherwise `floor((2 * totalWords + total) / (2 * total))`, the quotient
`totalWords / total` rounded to the nearest integer with a half going up; two notes with the
texts `a b c` and `d e` give `totalWords = 5` and `averageLength = 3`. -/
theorem statistics_word_counts (s : AppState) :
    (statistics s).totalWords =
      (s.notes.map (fun n => (splitWhitespace n.text).length)).sum ∧
    (s.notes = [] → (statistics s).averageLength = 0) ∧
    (s.notes ≠ [] → (statistics s).averageLength =
      ((2 * (statistics s).totalWords + s.notes.length) / (2 * s.notes.length) : Nat)) ∧
    (∀ a b : Note, s.notes = [a, b] → a.text = "a b c" → b.text = "d e" →
      (statistics s).totalWords = 5 ∧ (statistics s).averageLength = 3) := by
  have havg : s.notes ≠ [] → (statistics s).averageLength =
      ((2 * (statistics s).totalWords + s.notes.length) / (2 * s.notes.length) : Nat) := by
    intro hne
    have hpos : 0 < s.notes.length := List.length_pos.2 hne
    rw [statistics_averageLength, if_pos hpos, mathRound_div _ _ hpos, statistics_totalWords]
  refine ⟨?_, ?_, havg, ?_⟩
  · rw [statistics_totalWords, totalWords_eq_sum]
  · intro hnil
    rw [statistics_averageLength, hnil]
    rfl
  · intro a b hs ha hb
    have hw : (statistics s).totalWords = 5 := by
      rw [statistics_totalWords, totalWords_eq_sum, hs]
      simp only [List.map_cons, List.map_nil, ha, hb]
      decide
    refine ⟨hw, ?_⟩
    rw [havg (by rw [hs]; exact List.cons_ne_nil _ _), hw, hs]
    simp

/-- C11 at a concrete input: the collection of the two notes with the texts `a b c` and
`d e`. -/
theorem statistics_word_counts_witness :
    (statistics { initialState with
      notes := [exampleNote "1" "a b c", exampleNote "2" "d e"] }).totalWords = 5 ∧
    (statistics { initialState with
      notes := [exampleNote "1" "a b c", exampleNote "2" "d e"] }).averageLength = 3 :=
  (statistics_word_counts { initialState with
    notes := [exampleNote "1" "a b c", exampleNote "2" "d e"] }).2.2.2
    (exampleNote "1" "a b c") (exampleNote "2" "d e") rfl rfl rfl

/-! ## C12 and C13: the CSV export -/

/-- C12, the code at the failing input: the note made from the draft `say "hi"` has the title
`say "hi"`, and its CSV row carries this title between quotes as it is, its two double quotes
not doubled; only the text, the last field, has them doubled. -/
theorem csv_title_quotes_not_escaped :
    csvExample.notes.map (fun n => n.title) = [quotedText] ∧
    (exportNotes basicHost csvExample).content =
      csvHeader ++
        (quote ++ quotedText ++ quote ++ "," ++
          quote ++ "personal" ++ quote ++ "," ++
          quote ++ "medium" ++ quote ++ "," ++
          quote ++ "1/1/1970, 12:00:00 AM" ++ quote ++ "," ++
          quote ++ "1/1/1970, 12:00:00 AM" ++ quote ++ "," ++
          quote ++ "" ++ quote ++ "," ++
          quote ++ ("say " ++ quote ++ quote ++ "hi" ++ quote ++ quote) ++ quote) ∧
    replaceQuotes quotedText ≠ quotedText := by
  decide

theorem replaceQuotesChars_eq_flatMap (cs : List Char) :
    replaceQuotesChars cs =
      cs.flatMap (fun c => if c = quoteChar then [quoteChar, quoteChar] else [c]) := by
  induction cs with
  | nil => rfl
  | cons c cs ih =>
    by_cases h : c = quoteChar <;> simp [replaceQuotesChars, h, ih, List.flatMap_cons]

theorem replaceQuotesChars_filter (cs : List Char) :
    (replaceQuotesChars cs).filter (fun c => c != quoteChar) =
      cs.filter (fun c => c != quoteChar) := by
  induction cs with
  | nil => rfl
  | cons c cs ih =>
    by_cases h : c = quoteChar <;> simp [replaceQuotesChars, h, ih]

theorem replaceQuotesChars_count (cs : List Char) :
    (replaceQuotesChars cs).count quoteChar = 2 * cs.count quoteChar := by
  induction cs with
  | nil => rfl
  | cons c cs ih =>
    by_cases h : c = quoteChar
    · subst h
      simp only [replaceQuotesChars, if_true, List.count_cons_self, ih]
      omega
    · simp only [replaceQuotesChars, h, if_false, List.count_cons_of_ne (Ne.symm h), ih]

/-- C13: the last field of the CSV row of a note is its text between two double quotes, with
every double quote of the text replaced by two and every other character kept in its place;
the text `He said "hi"` is written `He said ""hi""`. -/
theorem csv_text_field_escaped (P : Platform) (n : Note) :
    (∃ front : String, csvRow P n = front ++ "," ++ quote ++ replaceQuotes n.text ++ quote) ∧
    (replaceQuotes n.text).data =
      n.text.data.flatMap (fun c => if c = quoteChar then [quoteChar, quoteChar] else [c]) ∧
    (replaceQuotes n.text).data.filter (fun c => c != quoteChar) =
      n.text.data.filter (fun c => c != quoteChar) ∧
    (replaceQuotes n.text).data.count quoteChar = 2 * n.text.data.count quoteChar ∧
    (n.text = "He said " ++ quote ++ "hi" ++ quote →
      replaceQuotes n.text = "He said " ++ quote ++ quote ++ "hi" ++ quote ++ quote) := by
  refine ⟨⟨_, rfl⟩, replaceQuotesChars_eq_flatMap _, replaceQuotesChars_filter _,
    replaceQuotesChars_count _, ?_⟩
  intro h
  rw [h]
  decide

/-- C13 at a concrete input: a note with the text `He said "hi"`. -/
theorem csv_text_field_escaped_witness :
    replaceQuotes (exampleNote "a" ("He said " ++ quote ++ "hi" ++ quote)).text =
      "He said " ++ quote ++ quote ++ "hi" ++ quote ++ quote :=
  (csv_text_field_escaped basicHost
    (exampleNote "a" ("He said " ++ quote ++ "hi" ++ quote))).2.2.2.2 rfl

/-! ## C14: the scope of the export -/

theorem trimChars_eq_nil_iff (cs : List Char) :
    ((cs.dropWhile isWhiteSpace).reverse.dropWhile isWhiteSpace).reverse = [] ↔
      ∀ c ∈ cs, isWhiteSpace c = true := by
  rw [List.reverse_eq_nil_iff, List.dropWhile_eq_nil_iff]
  constructor
  · intro h
    cases hd : cs.dropWhile isWhiteSpace with
    | nil => exact List.dropWhile_eq_nil_iff.1 hd
    | cons y rest =>
      exfalso
      have hy : isWhiteSpace y = true := h y (by rw [hd]; simp)
      have hn := List.head?_dropWhile_not isWhiteSpace cs
      rw [hd] at hn
      simp [hy] at hn
  · intro h x hx
    rw [List.dropWhile_eq_nil_iff.2 h] at hx
    simp at hx

/-- The trimmed text is empty exactly when every character of the text is white space. -/
theorem trim_eq_empty_iff (text : String) :
    trim text = "" ↔ ∀ c ∈ text.data, isWhiteSpace c = true := by
  rw [← trimChars_eq_nil_iff]
  unfold trim
  constructor
  · intro h
    exact congrArg String.data h
  · intro h
    rw [h]

/-- C15: a draft is blank (its trimmed text is empty) exactly when all its characters are
white space, and for a blank draft `addNote` returns the state it was given: no note is
created, and the collection and every other cell are unchanged. -/
theorem addNote_blank_draft_noop (P : Platform) (s : AppState) (newId : String) (now : Int) :
    (trim s.draft = "" ↔ ∀ c ∈ s.draft.data, isWhiteSpace c = true) ∧
    (trim s.draft = "" → addNote P s newId now = s) :=
  ⟨trim_eq_empty_iff s.draft, addNote_of_blank P s newId now⟩

/-- C15 at a concrete input: the draft of two spaces and a line feed, with one note in the
collection. -/
theorem addNote_blank_draft_noop_witness :
    addNote basicHost { initialState with notes := [exampleNote "a" "x"], draft := "  \n" }
      "b" 4 = { initialState with notes := [exampleNote "a" "x"], draft := "  \n" } :=
  (addNote_blank_draft_noop basicHost
    { initialState with notes := [exampleNote "a" "x"], draft := "  \n" } "b" 4).2 (by decide)

theorem selectAll_eq_selectAllWith (P : Platform) (s : AppState) :
    selectAll P s = selectAllWith (filtered P s) s := rfl

theorem getItem_setItem_self (st : Storage) (key : String) (value : StoredValue) :
    getItem (setItem st key value) key = some value := by
  simp [getItem, setItem]

theorem find?_filter_ne (key other : String) (h : other ≠ key) (st : Storage) :
    (st.filter (fun kv => kv.1 != key)).find? (fun kv => kv.1 == other) =
      st.find? (fun kv => kv.1 == other) := by
  induction st with
  | nil => rfl
  | cons kv rest ih =>
    obtain ⟨k, v⟩ := kv
    by_cases h1 : k = key
    · subst h1
      have h2 : (k == other) = false := by simpa using (Ne.symm h)
      simp only [List.filter_cons, List.find?_cons, bne_self_eq_false, Bool.false_eq_true,
        if_false, h2, ih]
    · have h1' : (k != key) = true := by simpa using h1
      simp only [List.filter_cons, h1', if_true, List.find?_cons, ih]

theorem getItem_setItem_of_ne (st : Storage) (key other : String) (value : StoredValue)
    (h : other ≠ key) : getItem (setItem st key value) other = getItem st other := by
  have hk : (key == other) = false := by simpa using (Ne.symm h)
  simp only [getItem, setItem, List.find?_cons, hk, find?_filter_ne key other h]

/-- C19 as stated fails for a mutation that empties the collection: after the last note is
deleted, the key `notes-v2` holds the empty collection, but the key `notes-backup` still
holds the backup of time 1 with the deleted note, not the current (empty) collection. -/
theorem backup_not_written_for_empty_collection :
    getItem afterLastNoteDeleted.localStorage "notes-v2" = some (.collection []) ∧
    getItem afterLastNoteDeleted.localStorage "notes-backup" =
      some (.backup [exampleNote "a" "x"] 1 "2.0") ∧
    ¬ (∃ (timestamp : Int) (version : String),
        getItem afterLastNoteDeleted.localStorage "notes-backup" =
          some (.backup [] timestamp version)) := by
  refine ⟨by decide, by decide, ?_⟩
  rintro ⟨timestamp, version, h⟩
  have h2 : getItem afterLastNoteDeleted.localStorage "notes-backup" =
      some (.backup [exampleNote "a" "x"] 1 "2.0") := by decide
  rw [h2] at h
  simp at h

/-- C19, amended: the persistence step always writes the key `notes-v2`, which then holds the
current collection.  When the collection is not empty it also writes the key `notes-backup`,
whose notes then equal the current collection, with the time of the step and the version
`2.0`, and records that time in `lastBackup`.  When the collection is empty it leaves the key
`notes-backup` and `lastBackup` as they were.  No other key is touched. -/
theorem persistNotes_writes (p : Persisted) (notes : List Note) (now : Int) :
    getItem (persistNotes p notes now).localStorage "notes-v2" = some (.collection notes) ∧
    (notes ≠ [] →
      getItem (persistNotes p notes now).localStorage "notes-backup" =
        some (.backup notes now "2.0") ∧
      (persistNotes p notes now).lastBackup = some now) ∧
    (notes = [] →
      getItem (persistNotes p notes now).localStorage "notes-backup" =
        getItem p.localStorage "notes-backup" ∧
      (persistNotes p notes now).lastBackup = p.lastBackup) ∧
    (∀ key : String, key ≠ "notes-v2" → key ≠ "notes-backup" →
      getItem (persistNotes p notes now).localStorage key = getItem p.localStorage key) := by
  have hne : ("notes-v2" : String) ≠ "notes-backup" := by decide
  by_cases hn : notes = []
  · subst hn
    have hp : persistNotes p [] now =
        { p with localStorage := setItem p.localStorage "notes-v2" (.collection []) } := rfl
    refine ⟨?_, fun h => absurd rfl h, fun _ => ⟨?_, ?_⟩, ?_⟩
    · rw [hp]; exact getItem_setItem_self _ _ _
    · rw [hp]; exact getItem_setItem_of_ne _ _ _ _ hne.symm
    · rw [hp]
    · intro key h1 _
      rw [hp]; exact getItem_setItem_of_ne _ _ _ _ h1
  · have hpos : notes.length > 0 := List.length_pos.2 hn
    have hp : persistNotes p notes now =
        { localStorage := setItem (setItem p.localStorage "notes-v2" (.collection notes))
            "notes-backup" (.backup notes now "2.0")
          lastBackup := some now } := by
      simp only [persistNotes, hpos, if_true]
    refine ⟨?_, fun _ => ⟨?_, ?_⟩, fun h => absurd h hn, ?_⟩
    · rw [hp]
      show getItem (setItem _ "notes-backup" _) "notes-v2" = _
      rw [getItem_setItem_of_ne _ _ _ _ hne, getItem_setItem_self]
    · rw [hp]; exact getItem_setItem_self _ _ _
    · rw [hp]
    · intro key h1 h2
      rw [hp]
      show getItem (setItem _ "notes-backup" _) key = _
      rw [getItem_setItem_of_ne _ _ _ _ h2, getItem_setItem_of_ne _ _ _ _ h1]

/-- C19 at a concrete input: persisting the collection of the note `a` at time 1 into an empty
store writes the backup of that collection. -/
theorem persistNotes_writes_witness :
    getItem (persistNotes { localStorage := [], lastBackup := none }
      [exampleNote "a" "x"] 1).localStorage "notes-backup" =
        some (.backup [exampleNote "a" "x"] 1 "2.0") :=
  ((persistNotes_writes { localStorage := [], lastBackup := none }
    [exampleNote "a" "x"] 1).2.1 (by decide)).1

end NotesPro
